import Mathlib

/-!
Verification development for `beacon-import.py`: a script that pushes genomic
variant data from a Galaxy workspace into a Beacon variant registry.  The
definitions below are a shallow embedding of the script's data model and
control flow; the theorems settle the specification's claims about it.
-/

set_option maxHeartbeats 1000000

namespace BeaconImport

/-! ## Data model

Structure `GalaxyDataset` mirrors the dataclass of the same name (source lines
192-221): the subset of Galaxy API fields the script uses.  `DatasetInfo`
models the raw dictionary returned by `show_dataset`, where any of the five
required keys may be absent. -/

structure GalaxyDataset where
  name : String
  id : String
  uuid : String
  extension : String
  reference_name : String
deriving DecidableEq, Repr

structure DatasetInfo where
  name : Option String
  id : Option String
  uuid : Option String
  extension : Option String
  metadata_dbkey : Option String
deriving DecidableEq, Repr

/-- Model of Python's `str.lower()` (character-wise lowercasing), stated over
the string's character list so that it computes by structural recursion. -/
def pyLower (s : String) : String :=
  ⟨s.data.map Char.toLower⟩

/-- Constructor `GalaxyDataset.__init__`: checks the keys `name`, `id`,
`uuid`, `extension`, `metadata_dbkey` in order and raises
`MissingFieldException` (modelled as `Except.error` carrying the offending
key) on the first missing one; otherwise populates the dataclass, with
`reference_name` taken from `metadata_dbkey`. -/
def mkGalaxyDataset (info : DatasetInfo) : Except String GalaxyDataset :=
  match info.name with
  | none => .error "name"
  | some n =>
    match info.id with
    | none => .error "id"
    | some i =>
      match info.uuid with
      | none => .error "uuid"
      | some u =>
        match info.extension with
        | none => .error "extension"
        | some e =>
          match info.metadata_dbkey with
          | none => .error "metadata_dbkey"
          | some k =>
            .ok { name := n, id := i, uuid := u, extension := e, reference_name := k }

/-! ## ReferenceGenomeFilter

The source filters references with `re.match(r"(GRCh\d+|hg\d+).*", label)`
(line 273) and, on a match, keeps `match.group(1)` (line 284).  `re.match`
anchors at the start of the string and tries the alternatives left to right,
so the embedding first attempts the `GRCh` family and then the `hg` family;
`\d+` greedily takes the maximal run of ASCII digits. -/

/-- Consume an exact literal at the head of a character list, returning the
remainder (the way a regex literal matches). -/
def dropExact : List Char → List Char → Option (List Char)
  | [], rest => some rest
  | _ :: _, [] => none
  | p :: ps, c :: cs => if p = c then dropExact ps cs else none

/-- Match `fam` followed by one or more digits at the head of `label`,
returning the matched group (family name plus the maximal digit run). -/
def famMatch (fam : List Char) (label : List Char) : Option (List Char) :=
  match dropExact fam label with
  | none => none
  | some [] => none
  | some (c :: rest) =>
    if c.isDigit then some (fam ++ c :: rest.takeWhile Char.isDigit) else none

/-- Model of `re.match(r"(GRCh\d+|hg\d+).*", label)`, returning `group(1)` on
success. -/
def refMatch (label : List Char) : Option (List Char) :=
  match famMatch "GRCh".toList label with
  | some g => some g
  | none => famMatch "hg".toList label

/-- The specification's notion of a label "of the accepted form": an accepted
family name (`GRCh` or `hg`) followed by one or more digits, then arbitrary
text. -/
def HasAcceptedForm (label : List Char) : Prop :=
  ∃ d s, d ≠ [] ∧ (∀ c ∈ d, c.isDigit = true) ∧
    (label = "GRCh".toList ++ d ++ s ∨ label = "hg".toList ++ d ++ s)

/-! ## DatasetDescriptorEnumerator

Function `get_datasets` (source lines 224-294) pages through the Galaxy API.
The body of the per-entry `for` loop constructs a `GalaxyDataset`, catching
`MissingFieldException` with only a warning — crucially, the `except` branch
has no `continue`, so control falls through to the reference-genome filter
with the Python local variable `dataset` still bound to the previous
iteration's value (or unbound on the very first entry, raising
`UnboundLocalError`).  The embedding threads that local variable explicitly as
an `Option GalaxyDataset`; referencing it while unbound is `Except.error`. -/

/-- One iteration of the per-entry loop body of `get_datasets` (source lines
260-286).  `st` is the current value of the Python local `dataset` (`none` =
not yet assigned), `acc` the accumulated `datasets` list.  Returns the updated
pair, or an error when the unbound local is referenced. -/
def processEntry (st : Option GalaxyDataset) (acc : List GalaxyDataset)
    (info : DatasetInfo) : Except Unit (Option GalaxyDataset × List GalaxyDataset) :=
  let st' : Option GalaxyDataset :=
    match mkGalaxyDataset info with
    | .ok d => some d
    | .error _ => st
  match st' with
  | none => .error ()
  | some d =>
    match refMatch d.reference_name.toList with
    | none => .ok (some d, acc)
    | some g =>
      let d' : GalaxyDataset := { d with reference_name := ⟨g⟩ }
      .ok (some d', acc ++ [d'])

/-- The per-entry loop over one page of API results. -/
def processEntries (st : Option GalaxyDataset) (acc : List GalaxyDataset) :
    List DatasetInfo → Except Unit (Option GalaxyDataset × List GalaxyDataset)
  | [] => .ok (st, acc)
  | info :: rest =>
    match processEntry st acc info with
    | .error e => .error e
    | .ok (st', acc') => processEntries st' acc' rest

/-- The outer paging loop of `get_datasets`: `pages` is the sequence of pages
the Galaxy API returns for offsets 0, 500, 1000, …; the loop processes each
page and breaks the first time a page is empty (an exhausted `pages` list
means the server answers with empty pages from there on). -/
def runPages (st : Option GalaxyDataset) (acc : List GalaxyDataset) :
    List (List DatasetInfo) → Except Unit (List GalaxyDataset)
  | [] => .ok acc
  | [] :: _ => .ok acc
  | p :: ps =>
    match processEntries st acc p with
    | .error e => .error e
    | .ok (st', acc') => runPages st' acc' ps

/-- Model of `get_datasets`, as a function of the page sequence served by the
API. -/
def get_datasets (pages : List (List DatasetInfo)) : Except Unit (List GalaxyDataset) :=
  runPages none [] pages

/-- The paging loop's request/consideration accounting: given the pages the
server would serve in order, returns `(number of page requests issued, number
of raw page entries iterated)`.  Mirrors the `while True` loop of
`get_datasets`: a page is always fully iterated (each entry triggering a
`show_dataset` call) before `offset` is advanced and the emptiness check runs;
only an empty page breaks the loop. -/
def paginationTrace : List (List DatasetInfo) → Nat × Nat
  | [] => (1, 0)
  | p :: ps =>
    if p.isEmpty then (1, 0)
    else
      let t := paginationTrace ps
      (t.1 + 1, p.length + t.2)

/-! ## MetadataSynthesizer

Structure `BeaconMetadata` (source lines 297-336) and function
`prepare_metadata_file` (source lines 339-375).  The two
`datetime.datetime.now()` calls are modelled as the parameters `now₁`, `now₂`;
the file write is modelled by returning the metadata value (the serialized
document is `__json__` of it, below). -/

structure BeaconMetadata where
  name : String
  dataset_id : String
  description : String
  assembly_id : String
  external_url : String
  access_type : String
  create_date_time : String
  update_date_time : String
  call_count : Int
  version : String
  variant_count : Int
deriving DecidableEq, Repr

/-- The metadata value assembled by `prepare_metadata_file` (source lines
350-372), including the hard-coded `call_count = 123` and
`variant_count = 123` placeholders. -/
def prepare_metadata (dataset : GalaxyDataset) (now₁ now₂ : String) : BeaconMetadata :=
  { name := "Galaxy.eu variants for " ++ dataset.reference_name
    dataset_id := "galaxy-" ++ pyLower dataset.reference_name
    description := "variants shared by galaxy.eu users"
    assembly_id := dataset.reference_name
    external_url := "usegalaxy.eu"
    access_type := "PUBLIC"
    create_date_time := now₁
    update_date_time := now₂
    call_count := 123
    version := "v0.1"
    variant_count := 123 }

/-- A JSON leaf value of the metadata document (strings and ints occur). -/
inductive MetaVal where
  | s (v : String)
  | n (v : Int)
deriving DecidableEq, Repr

/-- The iteration `vars(self).items()` over a `BeaconMetadata`: the attributes
in dataclass declaration order, under their internal snake_case names. -/
def metadataAttributes (m : BeaconMetadata) : List (String × MetaVal) :=
  [("name", .s m.name),
   ("dataset_id", .s m.dataset_id),
   ("description", .s m.description),
   ("assembly_id", .s m.assembly_id),
   ("external_url", .s m.external_url),
   ("access_type", .s m.access_type),
   ("create_date_time", .s m.create_date_time),
   ("update_date_time", .s m.update_date_time),
   ("call_count", .n m.call_count),
   ("version", .s m.version),
   ("variant_count", .n m.variant_count)]

/-- Key conversion `re.sub(r"_([a-z])", lambda x: x.group(1).upper(), attr)`
(source line 334): scanning left to right, an underscore directly followed by
an ASCII lowercase letter is replaced by that letter uppercased. -/
def snakeToCamel : List Char → List Char
  | [] => []
  | '_' :: c :: rest =>
    if 'a' ≤ c ∧ c ≤ 'z' then c.toUpper :: snakeToCamel rest
    else '_' :: snakeToCamel (c :: rest)
  | c :: rest => c :: snakeToCamel rest

/-- Serialization `BeaconMetadata.__json__` (source lines 326-336) as the
ordered key/value pairs of the emitted JSON object. -/
def metadataJsonPairs (m : BeaconMetadata) : List (String × MetaVal) :=
  (metadataAttributes m).map fun p => (⟨snakeToCamel p.1.toList⟩, p.2)

/-! ## RegistryLoader

Function `beacon_import` (source lines 398-433) awaits `db.load_metadata` and
then `db.load_datafile`, in sequence, on the shared event loop.  The embedding
records the awaited registry operations as a trace; `loadMeta` abstracts the
registry's metadata-load routine (metadata file, dataset file ↦ assigned
dataset identifier). -/

inductive RegistryOp where
  | loadMetadata (metadata_file dataset_file : String)
  | loadDatafile (dataset_file : String) (dataset_id : String) (min_ac : Nat)
deriving DecidableEq, Repr

/-- The trace of registry operations performed by `beacon_import`: the
metadata load completes first (yielding `dataset_id`), then the variant load
runs against that identifier with `min_ac=0` (source lines 429-433). -/
def beacon_import (loadMeta : String → String → String)
    (dataset_file metadata_file : String) : List RegistryOp :=
  let dataset_id := loadMeta metadata_file dataset_file
  [RegistryOp.loadMetadata metadata_file dataset_file,
   RegistryOp.loadDatafile dataset_file dataset_id 0]

/-- Modelled from the spec: the variant-load routine `load_datafile` lives in
the external beacon-python package (not under src/); per the spec it admits a
variant iff its allele count reaches the `min_ac` threshold, the default
threshold being 1. -/
def minAcIncluded (min_ac : Nat) (allele_count : Nat) : Bool :=
  min_ac ≤ allele_count

/-! ## OriginTracker

Function `persist_variant_origins` (source lines 436-460): for each variant of
the re-opened VCF and each alternate allele, query `get_variant_indices` and
append one `"{index} {dataset_id}\n"` line per returned index.  The registry
query is abstracted as `q : start → ref → alt → indices`; the output file is
threaded as the string of its contents so far. -/

structure Variant where
  start : Int
  REF : String
  ALT : List String
deriving DecidableEq, Repr

/-- Innermost loop: append one line per returned index, in order. -/
def writeIndexLines (dataset_id : String) (file : String) : List Int → String
  | [] => file
  | index :: rest =>
    writeIndexLines dataset_id (file ++ toString index ++ " " ++ dataset_id ++ "\n") rest

/-- Middle loop over `variant.ALT`. -/
def writeAltLines (q : Int → String → String → List Int) (dataset_id : String)
    (v : Variant) (file : String) : List String → String
  | [] => file
  | alt :: rest =>
    writeAltLines q dataset_id v (writeIndexLines dataset_id file (q v.start v.REF alt)) rest

/-- Outer loop of `persist_variant_origins` over the dataset's variants,
returning the origin file's contents after the appends. -/
def persist_variant_origins (q : Int → String → String → List Int)
    (dataset_id : String) (file : String) : List Variant → String
  | [] => file
  | v :: rest =>
    persist_variant_origins q dataset_id (writeAltLines q dataset_id v file v.ALT) rest

/-- The registry-assigned dataset identifier for a dataset: `load_metadata`
registers the dataset under the `datasetId` of its metadata document, which
`prepare_metadata` derives as `"galaxy-" ++ reference_name.lower()` (source
line 362). -/
def registryAssignedId (dataset : GalaxyDataset) : String :=
  "galaxy-" ++ pyLower dataset.reference_name

/-- Concatenation of a list of strings (used to state what the origin-file
append loops produce). -/
def concatAll : List String → String
  | [] => ""
  | s :: rest => s ++ concatAll rest

/-- The lines the innermost loop is expected to append for one index list. -/
def expectedIndexLines (dataset_id : String) (idxs : List Int) : String :=
  concatAll (idxs.map fun i => toString i ++ " " ++ dataset_id ++ "\n")

/-- The lines expected for one variant (all its alternate alleles). -/
def expectedAltLines (q : Int → String → String → List Int) (dataset_id : String)
    (v : Variant) : String :=
  concatAll (v.ALT.map fun alt => expectedIndexLines dataset_id (q v.start v.REF alt))

/-- The full expected origin-file content for a dataset's variants. -/
def expectedOriginContent (q : Int → String → String → List Int)
    (dataset_id : String) (vs : List Variant) : String :=
  concatAll (vs.map fun v => expectedAltLines q dataset_id v)

/-! ## ImportOrchestrator

Function `main` (source lines 471-512).  The per-dataset loop body logs,
computes the two `/tmp` paths from the dataset's uuid, downloads, writes
metadata, runs `beacon_import`, and (unless `--skip-origins`) persists origins
— passing `dataset.id`, the Galaxy-internal id, to `persist_variant_origins`
(source line 512).  The defined `cleanup` helper (source lines 463-468)
removes the two files, but `main` never calls it.  Each step is recorded as a
trace element. -/

inductive PipelineStep where
  | download (dataset_id file : String)
  | prepareMetadataFile (file : String)
  | registryImport (dataset_file metadata_file : String)
  | persistOrigins (dataset_id : String)
  | cleanupFiles (dataset_file metadata_file : String)
deriving DecidableEq, Repr

def dataset_file_path (dataset : GalaxyDataset) : String :=
  "/tmp/dataset-" ++ dataset.uuid

def metadata_file_path (dataset : GalaxyDataset) : String :=
  "/tmp/metadata-" ++ dataset.uuid

/-- The steps `main` performs for one enumerated dataset (source lines
496-512), in order. -/
def mainDatasetCycle (skip_origins : Bool) (dataset : GalaxyDataset) : List PipelineStep :=
  [PipelineStep.download dataset.id (dataset_file_path dataset),
   PipelineStep.prepareMetadataFile (metadata_file_path dataset),
   PipelineStep.registryImport (dataset_file_path dataset) (metadata_file_path dataset)]
  ++ (if skip_origins then [] else [PipelineStep.persistOrigins dataset.id])

def isCleanupStep : PipelineStep → Bool
  | .cleanupFiles _ _ => true
  | _ => false

/-- Function `cleanup` (source lines 463-468) on a model file system (the list
of existing paths): removes the two given files. -/
def cleanup (fs : List String) (dataset_file metadata_file : String) : List String :=
  fs.filter fun f => !(f == dataset_file) && !(f == metadata_file)

/-- The origin persistence call in `main` (source line 512): the identifier
passed is `dataset.id`, the Galaxy workspace-internal dataset id. -/
def mainPersistOrigins (q : Int → String → String → List Int)
    (dataset : GalaxyDataset) (file : String) (variants : List Variant) : String :=
  persist_variant_origins q dataset.id file variants

/-! ## Collection listing and the startup connection test

Function `get_beacon_histories` (source lines 160-182) and the connection test
inside `set_up_galaxy_instance` (source lines 134-150).  HTTP responses are
modelled as a status code plus the parsed JSON body (an association list).
The fetch can log critical messages, return the field's value, or raise
`KeyError`; it has no `exit()` call, unlike the startup test which exits with
status 2. -/

structure HistoryRecord where
  history_id : String
deriving DecidableEq, Repr

structure HistoriesResponse where
  status_code : Nat
  body : List (String × List HistoryRecord)
deriving DecidableEq, Repr

inductive FetchOutcome where
  | ok (histories : List HistoryRecord)
  | keyError (key : String)
  | exited (code : Nat)
deriving DecidableEq, Repr

/-- Model of `get_beacon_histories`: logs `critical "bla"` on a non-200
status, logs another on a missing `beacon_histories` key, then returns
`body["beacon_histories"]` — which raises `KeyError` when the key is absent.
Returns `(log lines, outcome)`. -/
def get_beacon_histories (resp : HistoriesResponse) : List String × FetchOutcome :=
  let logs₁ : List String := if resp.status_code ≠ 200 then ["critical: bla"] else []
  let logs₂ : List String :=
    logs₁ ++ (if (resp.body.lookup "beacon_histories").isNone then ["critical: bla"] else [])
  match resp.body.lookup "beacon_histories" with
  | some v => (logs₂, .ok v)
  | none => (logs₂, .keyError "beacon_histories")

structure WhoamiResponse where
  status_code : Nat
  content : List (String × String)
deriving DecidableEq, Repr

inductive StartupOutcome where
  | proceed (username : String)
  | exited (code : Nat)
deriving DecidableEq, Repr

/-- The startup connection test of `set_up_galaxy_instance` (source lines
134-150): a non-200 status exits with status 2; a `KeyError` on
`content["username"]` is caught by the surrounding `except`, which also exits
with status 2; otherwise the run proceeds. -/
def connection_test (resp : WhoamiResponse) : StartupOutcome :=
  if resp.status_code ≠ 200 then .exited 2
  else
    match resp.content.lookup "username" with
    | some u => .proceed u
    | none => .exited 2

/-! ## Concrete inputs used by witnesses and counterexamples -/

def infoOk : DatasetInfo :=
  ⟨some "dataset one", some "f2db41e1fa331b3e", some "aaaa-bbbb", some "vcf", some "GRCh38.p13"⟩

def infoMissingUuid : DatasetInfo :=
  ⟨some "dataset two", some "a799d38679e985db", none, some "vcf", some "GRCh38"⟩

def infoMm10 : DatasetInfo :=
  ⟨some "dataset three", some "33b43b4e7093c91f", some "cccc-dddd", some "vcf", some "mm10"⟩

/-- The descriptor `infoOk` yields after reference normalization. -/
def okNormalized : GalaxyDataset :=
  ⟨"dataset one", "f2db41e1fa331b3e", "aaaa-bbbb", "vcf", "GRCh38"⟩

def dsA : GalaxyDataset := ⟨"sample A", "idA", "uuidA", "vcf", "GRCh38"⟩

def dsB : GalaxyDataset := ⟨"sample B", "idB", "uuidB", "vcf_bgzip", "GRCh38"⟩

def dsC : GalaxyDataset := ⟨"sample C", "idC", "uuidC", "vcf", "GRCh37"⟩

def dsG : GalaxyDataset := ⟨"sample G", "f2db41e1fa331b3e", "uuidG", "vcf", "GRCh38"⟩

/-- A registry state holding rows 4 and 17 for the variant (100, A, T). -/
def q100 : Int → String → String → List Int :=
  fun s r a => if s = 100 ∧ r = "A" ∧ a = "T" then [4, 17] else []

/-! ## Helper lemmas -/

theorem dropExact_append (p rest : List Char) : dropExact p (p ++ rest) = some rest := by
  induction p with
  | nil => rfl
  | cons c cs ih => simp [dropExact, ih]

theorem dropExact_eq_some {p l rest : List Char} (h : dropExact p l = some rest) :
    l = p ++ rest := by
  induction p generalizing l with
  | nil => simpa [dropExact] using h
  | cons c cs ih =>
    match l with
    | [] => simp [dropExact] at h
    | x :: xs =>
      simp only [dropExact] at h
      by_cases hc : c = x
      · subst hc
        simp only [if_pos rfl] at h
        simpa using ih h
      · simp [hc] at h

theorem takeWhile_append_of_all {p : Char → Bool} {d s : List Char}
    (hd : ∀ c ∈ d, p c = true) (hs : s.takeWhile p = []) :
    (d ++ s).takeWhile p = d := by
  induction d with
  | nil => simpa using hs
  | cons c cs ih =>
    have hc : p c = true := hd c (by simp)
    simp only [List.cons_append, List.takeWhile_cons, hc, if_pos]
    exact congrArg (c :: ·) (ih fun x hx => hd x (by simp [hx]))

theorem famMatch_eq_some {fam label g : List Char} (h : famMatch fam label = some g) :
    ∃ c rest, label = fam ++ c :: rest ∧ c.isDigit = true ∧
      g = fam ++ c :: rest.takeWhile Char.isDigit := by
  unfold famMatch at h
  match hdr : dropExact fam label with
  | none => rw [hdr] at h; exact absurd h (by simp)
  | some [] => rw [hdr] at h; exact absurd h (by simp)
  | some (c :: rest) =>
    rw [hdr] at h
    by_cases hc : c.isDigit
    · refine ⟨c, rest, dropExact_eq_some hdr, hc, ?_⟩
      simp only [if_pos hc, Option.some.injEq] at h
      exact h.symm
    · simp [hc] at h

theorem famMatch_matches (fam d s : List Char) (hd : d ≠ [])
    (hdig : ∀ c ∈ d, c.isDigit = true) (hs : s.takeWhile Char.isDigit = []) :
    famMatch fam (fam ++ d ++ s) = some (fam ++ d) := by
  match d, hd with
  | c :: ds, _ =>
    have hc : c.isDigit = true := hdig c (by simp)
    have harr : fam ++ (c :: ds) ++ s = fam ++ c :: (ds ++ s) := by simp
    rw [harr]
    unfold famMatch
    rw [dropExact_append]
    simp only [hc, if_pos]
    rw [takeWhile_append_of_all (fun x hx => hdig x (by simp [hx])) hs]

theorem famMatch_grch_on_hg (rest : List Char) :
    famMatch "GRCh".toList ("hg".toList ++ rest) = none := by
  have : dropExact "GRCh".toList ("hg".toList ++ rest) = none := by
    show dropExact ('G' :: "RCh".toList) ('h' :: ("g".toList ++ rest)) = none
    unfold dropExact
    rw [if_neg (by decide)]
  unfold famMatch
  rw [this]

theorem writeIndexLines_eq (dataset_id : String) (idxs : List Int) (file : String) :
    writeIndexLines dataset_id file idxs = file ++ expectedIndexLines dataset_id idxs := by
  induction idxs generalizing file with
  | nil => simp [writeIndexLines, expectedIndexLines, concatAll]
  | cons i rest ih =>
    simp only [writeIndexLines, expectedIndexLines, List.map_cons, concatAll, ih]
    simp [String.append_assoc]

theorem writeAltLines_eq (q : Int → String → String → List Int) (dataset_id : String)
    (v : Variant) (alts : List String) (file : String) :
    writeAltLines q dataset_id v file alts =
      file ++ concatAll (alts.map fun alt => expectedIndexLines dataset_id (q v.start v.REF alt)) := by
  induction alts generalizing file with
  | nil => simp [writeAltLines, concatAll]
  | cons alt rest ih =>
    simp only [writeAltLines, List.map_cons, concatAll, ih, writeIndexLines_eq]
    simp [String.append_assoc]

theorem persist_variant_origins_eq (q : Int → String → String → List Int)
    (dataset_id : String) (vs : List Variant) (file : String) :
    persist_variant_origins q dataset_id file vs = file ++ expectedOriginContent q dataset_id vs := by
  induction vs generalizing file with
  | nil => simp [persist_variant_origins, expectedOriginContent, concatAll]
  | cons v rest ih =>
    simp only [persist_variant_origins, expectedOriginContent, List.map_cons, concatAll, ih,
      writeAltLines_eq]
    simp [String.append_assoc, expectedAltLines]

theorem paginationTrace_append_empty (pre post : List (List DatasetInfo))
    (h : ∀ p ∈ pre, p ≠ []) :
    paginationTrace (pre ++ [] :: post) = (pre.length + 1, (pre.map List.length).sum) := by
  induction pre with
  | nil => simp [paginationTrace]
  | cons p ps ih =>
    have hp : p ≠ [] := h p (List.mem_cons_self _ _)
    have hps : ∀ x ∈ ps, x ≠ [] := fun x hx => h x (List.mem_cons_of_mem _ hx)
    match p, hp with
    | a :: as, _ =>
      rw [List.cons_append]
      rw [show paginationTrace ((a :: as) :: (ps ++ [] :: post)) =
            ((paginationTrace (ps ++ [] :: post)).1 + 1,
             (a :: as).length + (paginationTrace (ps ++ [] :: post)).2) from rfl]
      rw [ih hps]
      simp

/-! ## Claim theorems -/

/-- Claim C3: for any two datasets with the same normalized reference-genome
name, `prepare_metadata_file` synthesizes the same dataset identifier,
regardless of their workspace-internal ids, uuids, display names, extensions,
or the timestamps of the run: the identifier is a function of the
reference-genome name only. -/
theorem dataset_id_depends_only_on_reference (d₁ d₂ : GalaxyDataset)
    (n₁ n₂ n₃ n₄ : String) (h : d₁.reference_name = d₂.reference_name) :
    (prepare_metadata d₁ n₁ n₂).dataset_id = (prepare_metadata d₂ n₃ n₄).dataset_id := by
  simp [prepare_metadata, h]

/-- Witness for C3: two concrete descriptors differing in name, id, uuid and
extension but sharing the reference `GRCh38` get the same identifier. -/
theorem dataset_id_depends_only_on_reference_witness :
    (prepare_metadata dsA "2024-01-01 00:00:00" "2024-01-01 00:00:01").dataset_id =
      (prepare_metadata dsB "2025-06-30 12:00:00" "2025-06-30 12:00:02").dataset_id :=
  dataset_id_depends_only_on_reference dsA dsB _ _ _ _ rfl

/-- Claim C6: `beacon_import` runs exactly two registry operations: the
metadata load first, then the variant load against precisely the identifier
the metadata load returned, with `min_ac = 0`; with threshold 0 every allele
count passes the minimum-allele-count filter (whereas the registry's default
threshold 1 would exclude count-0 variants). -/
theorem metadata_load_precedes_variant_load (loadMeta : String → String → String)
    (dataset_file metadata_file : String) :
    beacon_import loadMeta dataset_file metadata_file =
      [RegistryOp.loadMetadata metadata_file dataset_file,
       RegistryOp.loadDatafile dataset_file (loadMeta metadata_file dataset_file) 0] ∧
    (∀ allele_count : Nat, minAcIncluded 0 allele_count = true) ∧
    minAcIncluded 1 0 = false :=
  ⟨rfl, fun allele_count => by simp [minAcIncluded], rfl⟩

/-- Claim C8: the serialized metadata document's keys are exactly the eleven
public camel-case names, in attribute order, each obtained from the internal
snake_case attribute name by the underscore-dropping uppercase rewrite. -/
theorem metadata_json_camel_case_keys (m : BeaconMetadata) :
    (metadataJsonPairs m).map Prod.fst =
      ["name", "datasetId", "description", "assemblyId", "externalUrl", "accessType",
       "createDateTime", "updateDateTime", "callCount", "version", "variantCount"] := rfl

/-- Claim C9: the call count and variant count written into the synthesized
metadata are the constant 123, for every dataset and every timestamp pair. -/
theorem metadata_counts_hardcoded (d : GalaxyDataset) (n₁ n₂ : String) :
    (prepare_metadata d n₁ n₂).call_count = 123 ∧
    (prepare_metadata d n₁ n₂).variant_count = 123 :=
  ⟨rfl, rfl⟩

/-- Claim C1 (code bug evidence): the `except MissingFieldException` branch of
`get_datasets` lacks a `continue`, so a page entry with a missing required
field is not skipped.  First conjunct: when the entry missing its `uuid` is
the first entry enumerated, the fall-through references the never-assigned
`dataset` local and enumeration aborts with `UnboundLocalError` instead of
continuing to the next page.  Second conjunct: when a valid entry precedes it,
the fall-through re-appends the stale previous descriptor, so the page with
the missing-`uuid` entry and the `mm10` entry contributes a duplicate
descriptor rather than zero. -/
theorem missing_field_entries_not_skipped :
    get_datasets [[infoMissingUuid, infoMm10], [infoOk], []] = Except.error () ∧
    get_datasets [[infoOk, infoMissingUuid, infoMm10], []] =
      Except.ok [okNormalized, okNormalized] :=
  ⟨rfl, rfl⟩

/-- Counterexample for Claim C2: `main` (source line 512) passes `dataset.id`
— the Galaxy workspace-internal id — to `persist_variant_origins`, not the
registry-assigned dataset identifier.  For a GRCh38 dataset whose workspace id
is `f2db41e1fa331b3e` and a registry reporting rows 4 and 17 for
(100, A, T), the appended lines carry the workspace id, not
`galaxy-grch38`. -/
theorem origin_lines_use_workspace_id_counterexample :
    registryAssignedId dsG = "galaxy-grch38" ∧
    mainPersistOrigins q100 dsG "" [⟨100, "A", ["T"]⟩] =
      "4 f2db41e1fa331b3e\n17 f2db41e1fa331b3e\n" ∧
    mainPersistOrigins q100 dsG "" [⟨100, "A", ["T"]⟩] ≠
      "4 galaxy-grch38\n17 galaxy-grch38\n" := by
  refine ⟨rfl, rfl, ?_⟩
  decide

/-- Claim C2 as amended: for every variant record and every alternate allele,
`main`'s origin-persistence call appends exactly one line
`<index> <datasetId>` per registry index returned for the (start, reference,
alternate) triple, in the order returned — where `<datasetId>` is the Galaxy
workspace-internal dataset id that `main` passes, not the registry-assigned
identifier. -/
theorem persist_origins_appends_line_per_index (q : Int → String → String → List Int)
    (d : GalaxyDataset) (file : String) (vs : List Variant) :
    mainPersistOrigins q d file vs = file ++ expectedOriginContent q d.id vs :=
  persist_variant_origins_eq q d.id vs file

/-- Counterexample for Claim C7: the per-dataset cycle of `main` ends with the
origin-persistence step (or the registry import when origins are skipped) and
contains no cleanup step at all — `cleanup` is defined in the source but never
called. -/
theorem dataset_cycle_lacks_cleanup_counterexample :
    (mainDatasetCycle false dsC).getLast? = some (PipelineStep.persistOrigins "idC") ∧
    (mainDatasetCycle false dsC).any isCleanupStep = false ∧
    (mainDatasetCycle true dsC).any isCleanupStep = false := by
  refine ⟨rfl, rfl, rfl⟩

/-- Claim C7 as amended: no per-dataset import cycle contains a cleanup step;
the transferred dataset file and companion metadata file are left in place
when the next descriptor is processed.  The `cleanup` helper, which would
remove exactly those two files from the file system, exists in the source but
is never invoked by `main`. -/
theorem dataset_cycle_has_no_cleanup :
    (∀ (skip_origins : Bool) (d : GalaxyDataset),
      (mainDatasetCycle skip_origins d).all (fun s => !(isCleanupStep s)) = true) ∧
    (∀ (fs : List String) (df mf : String), df ∉ cleanup fs df mf ∧ mf ∉ cleanup fs df mf) := by
  constructor
  · intro skip_origins d
    cases skip_origins <;> simp [mainDatasetCycle, isCleanupStep]
  · intro fs df mf
    constructor <;> simp [cleanup, List.mem_filter]

/-- Witness for the amended C7: the cycle for a concrete dataset contains no
cleanup step, and the (never-invoked) cleanup helper would indeed remove both
files. -/
theorem dataset_cycle_has_no_cleanup_witness :
    (mainDatasetCycle false dsC).all (fun s => !(isCleanupStep s)) = true ∧
    "/tmp/dataset-uuidC" ∉
      cleanup ["/tmp/dataset-uuidC", "/tmp/metadata-uuidC", "/tmp/other"]
        "/tmp/dataset-uuidC" "/tmp/metadata-uuidC" :=
  ⟨dataset_cycle_has_no_cleanup.1 false dsC,
   (dataset_cycle_has_no_cleanup.2 ["/tmp/dataset-uuidC", "/tmp/metadata-uuidC", "/tmp/other"]
      "/tmp/dataset-uuidC" "/tmp/metadata-uuidC").1⟩

/-- Claim C10: `get_beacon_histories` never exits the process, whatever the
response: on a non-200 status or on a body missing the `beacon_histories`
field it logs a message and execution continues; it returns the field's value
when present and raises `KeyError` when absent.  By contrast, the startup
connection test exits with the distinguished status 2 on a non-200
response. -/
theorem history_fetch_never_exits (resp : HistoriesResponse) :
    (∀ code, (get_beacon_histories resp).2 ≠ FetchOutcome.exited code) ∧
    ((resp.status_code ≠ 200 ∨ resp.body.lookup "beacon_histories" = none) →
      (get_beacon_histories resp).1 ≠ []) ∧
    (∀ v, resp.body.lookup "beacon_histories" = some v →
      (get_beacon_histories resp).2 = FetchOutcome.ok v) ∧
    (resp.body.lookup "beacon_histories" = none →
      (get_beacon_histories resp).2 = FetchOutcome.keyError "beacon_histories") ∧
    (∀ w : WhoamiResponse, w.status_code ≠ 200 →
      connection_test w = StartupOutcome.exited 2) := by
  refine ⟨?_, ?_, ?_, ?_, ?_⟩
  · intro code
    unfold get_beacon_histories
    match hl : resp.body.lookup "beacon_histories" with
    | some v => simp
    | none => simp
  · intro h
    unfold get_beacon_histories
    rcases h with h | h
    · match hl : resp.body.lookup "beacon_histories" with
      | some v => simp [h]
      | none => simp [h]
    · rw [h]
      by_cases hs : resp.status_code = 200 <;> simp [hs]
  · intro v hv
    unfold get_beacon_histories
    rw [hv]
  · intro hv
    unfold get_beacon_histories
    rw [hv]
  · intro w hw
    unfold connection_test
    rw [if_pos hw]

/-- Witness for C10: a concrete 500-status response with an empty body yields
a `KeyError` on the missing field, with a non-empty log and no process exit,
while the same status in the startup connection test exits with status 2. -/
theorem history_fetch_never_exits_witness :
    (get_beacon_histories ⟨500, []⟩).2 = FetchOutcome.keyError "beacon_histories" ∧
    (get_beacon_histories ⟨500, []⟩).1 ≠ [] ∧
    connection_test ⟨500, []⟩ = StartupOutcome.exited 2 :=
  ⟨(history_fetch_never_exits ⟨500, []⟩).2.2.2.1 rfl,
   (history_fetch_never_exits ⟨500, []⟩).2.1 (Or.inl (by decide)),
   (history_fetch_never_exits ⟨500, []⟩).2.2.2.2 ⟨500, []⟩ (by decide)⟩

/-- Claim C4: (i) every label that starts with an accepted family name
(`GRCh` or `hg`) followed by one or more digits matches, and the filter
returns exactly the family name plus the (maximal) digit run, discarding the
trailing suffix; (ii) every label not of that form yields no match; (iii) in
`get_datasets` an unmatched reference is a per-item skip — the entry
contributes nothing and processing continues with the remaining entries, with
no error. -/
theorem reference_filter_normalizes_family :
    (∀ fam d s : List Char, (fam = "GRCh".toList ∨ fam = "hg".toList) → d ≠ [] →
      (∀ c ∈ d, c.isDigit = true) → s.takeWhile Char.isDigit = [] →
      refMatch (fam ++ d ++ s) = some (fam ++ d)) ∧
    (∀ label : List Char, ¬ HasAcceptedForm label → refMatch label = none) ∧
    (∀ (st : Option GalaxyDataset) (acc : List GalaxyDataset) (info : DatasetInfo)
        (rest : List DatasetInfo) (d : GalaxyDataset),
      mkGalaxyDataset info = Except.ok d → refMatch d.reference_name.toList = none →
      processEntries st acc (info :: rest) = processEntries (some d) acc rest) := by
  refine ⟨?_, ?_, ?_⟩
  · rintro fam d s (hf | hf) hd hdig hs
    · subst hf
      unfold refMatch
      rw [famMatch_matches _ d s hd hdig hs]
    · subst hf
      unfold refMatch
      rw [List.append_assoc, famMatch_grch_on_hg (d ++ s)]
      show famMatch "hg".toList ("hg".toList ++ (d ++ s)) = _
      rw [← List.append_assoc]
      exact famMatch_matches _ d s hd hdig hs
  · intro label h
    match hr : refMatch label with
    | none => rfl
    | some g =>
      exfalso
      apply h
      unfold refMatch at hr
      match h1 : famMatch "GRCh".toList label with
      | some g' =>
        obtain ⟨c, rest, hl, hc, _⟩ := famMatch_eq_some h1
        exact ⟨[c], rest, by simp, by simp [hc], Or.inl (by simpa using hl)⟩
      | none =>
        rw [h1] at hr
        obtain ⟨c, rest, hl, hc, _⟩ := famMatch_eq_some hr
        exact ⟨[c], rest, by simp, by simp [hc], Or.inr (by simpa using hl)⟩
  · intro st acc info rest d hmk hre
    have hre' : refMatch d.reference_name.data = none := hre
    simp [processEntries, processEntry, hmk, hre']

/-- Witness for C4: the label `GRCh38.p13` normalizes to `GRCh38`. -/
theorem reference_filter_normalizes_family_witness :
    refMatch ("GRCh".toList ++ ['3', '8'] ++ ".p13".toList) =
      some ("GRCh".toList ++ ['3', '8']) :=
  reference_filter_normalizes_family.1 _ _ _ (Or.inl rfl) (by decide) (by decide) (by decide)

/-- Claim C5: the paging loop of `get_datasets` terminates exactly the first
time a requested page comes back empty, regardless of any earlier page being
smaller than the page size: with nonempty pages `pre` followed by an empty
page, it issues `pre.length + 1` requests and iterates every entry of `pre`,
never touching what the server would return afterwards.  In particular, pages
of sizes 500, 500, 37, 0 give exactly 4 requests and 1037 raw entries, and no
5th request is ever issued. -/
theorem pagination_terminates_on_first_empty_page :
    (∀ (pre post : List (List DatasetInfo)), (∀ p ∈ pre, p ≠ []) →
      paginationTrace (pre ++ [] :: post) = (pre.length + 1, (pre.map List.length).sum)) ∧
    (∀ post : List (List DatasetInfo),
      paginationTrace ([List.replicate 500 infoOk, List.replicate 500 infoOk,
        List.replicate 37 infoOk] ++ [] :: post) = (4, 1037)) := by
  refine ⟨paginationTrace_append_empty, ?_⟩
  intro post
  rw [paginationTrace_append_empty _ post ?_]
  · simp only [List.map_cons, List.map_nil, List.length_replicate, List.sum_cons,
      List.sum_nil, List.length_cons, List.length_nil]
    decide
  · intro p hp
    simp only [List.mem_cons, List.not_mem_nil, or_false] at hp
    rcases hp with rfl | rfl | rfl <;>
      · intro h
        have h2 := congrArg List.length h
        simp only [List.length_replicate, List.length_nil] at h2
        exact absurd h2 (by decide)

/-- Witness for C5: two nonempty pages followed by an empty one give 3
requests and 3 raw entries, and the page served after the empty one is never
requested. -/
theorem pagination_terminates_on_first_empty_page_witness :
    paginationTrace ([[infoOk], [infoOk, infoMm10]] ++ [] :: [[infoMissingUuid]]) = (3, 3) := by
  have h := pagination_terminates_on_first_empty_page.1 [[infoOk], [infoOk, infoMm10]]
    [[infoMissingUuid]] (by decide)
  simpa using h

end BeaconImport
